import Mathlib

/-
  Verification of the preview-sweeper namespace sweep engine
  (internal/controller/previewsweeper_controller.go).

  The embedding models:
  * Go `strings.TrimSpace`, `strconv.Atoi` and `time.ParseDuration`
    (the parsing helpers the TTL resolver calls), with `time.Duration`
    as `Int` nanoseconds and Go's uint64 overflow checks kept explicit;
  * `resolveTTL`, the per-namespace TTL resolver;
  * `SweepOnce`, one sweep pass over the namespaces returned by the
    cluster store, with the store itself (List / Delete / events) as
    explicit inputs and outputs;
  * `withJitter`, the jittered-delay helper, with its `float64`
    arithmetic modelled exactly over `ℚ` and Go's float-to-integer
    conversion as truncation toward zero.
-/

namespace PreviewSweeper

/-- Go `time` package duration units, in nanoseconds. -/
def Nanosecond : Int := 1

def Microsecond : Int := 1000

def Millisecond : Int := 1000000

def Second : Int := 1000000000

def Minute : Int := 60000000000

def Hour : Int := 3600000000000

/-- Go `unicode.IsSpace`: Unicode white space as used by `strings.TrimSpace`. -/
def goIsSpace (c : Char) : Bool :=
  let n := c.toNat
  n = 9 || n = 10 || n = 11 || n = 12 || n = 13 || n = 32 ||
  n = 133 || n = 160 || n = 0x1680 ||
  (0x2000 ≤ n && n ≤ 0x200A) || n = 0x2028 || n = 0x2029 ||
  n = 0x202F || n = 0x205F || n = 0x3000

/-- Go `strings.TrimSpace`: drop leading and trailing white space. -/
def goTrimSpace (s : String) : String :=
  String.mk (((s.data.dropWhile goIsSpace).reverse.dropWhile goIsSpace).reverse)

/-- Numeric value of an ASCII digit. -/
def digitVal (c : Char) : Nat := c.toNat - 48

/-- Go `strconv.Atoi` (= `ParseInt(s, 10, 64)` on a 64-bit platform):
optional sign, one or more ASCII digits, value within int64 range;
anything else is an error, modelled as `none`. -/
def goAtoi (s : String) : Option Int :=
  let cs := s.data
  match cs with
  | [] => none
  | c :: rest =>
    let neg := c = '-'
    let digits := if c = '-' ∨ c = '+' then rest else cs
    if digits = [] then none
    else if digits.all Char.isDigit then
      let n : Nat := digits.foldl (fun a c => a * 10 + digitVal c) 0
      if neg then
        if n ≤ 2 ^ 63 then some (-(n : Int)) else none
      else
        if n ≤ 2 ^ 63 - 1 then some (n : Int) else none
    else none

/-- Go `time.leadingInt`: consume leading ASCII digits into a uint64
accumulator, failing (`none`) on overflow past `1<<63`; returns the
value and the unconsumed remainder. -/
def leadingInt : List Char → Nat → Option (Nat × List Char)
  | [], x => some (x, [])
  | c :: rest, x =>
    if c.isDigit then
      if x > 2 ^ 63 / 10 then none
      else
        let y := x * 10 + digitVal c
        if y > 2 ^ 63 then none
        else leadingInt rest y
    else some (x, c :: rest)

/-- Go `time.leadingFraction`: consume digits after the decimal point,
accumulating value `x` and scale (a power of ten); once the accumulator
would overflow, further digits are ignored. The Go original keeps
`scale` in a float64; it is kept exact here. -/
def leadingFraction : List Char → Nat → Nat → Bool → Nat × Nat × List Char
  | [], x, scale, _ => (x, scale, [])
  | c :: rest, x, scale, ovf =>
    if c.isDigit then
      if ovf then leadingFraction rest x scale ovf
      else if x > (2 ^ 63 - 1) / 10 then leadingFraction rest x scale true
      else
        let y := x * 10 + digitVal c
        if y > 2 ^ 63 then leadingFraction rest x scale true
        else leadingFraction rest y (scale * 10) ovf
    else (x, scale, c :: rest)

/-- The optional fractional part `(\.[0-9]*)?` of one duration component:
value, scale, remainder, and whether any fraction digit was consumed. -/
def consumeFraction : List Char → Nat × Nat × List Char × Bool
  | '.' :: r1 =>
    match leadingFraction r1 0 1 false with
    | (f, scale, s2) => (f, scale, s2, r1.length != s2.length)
  | s1 => (0, 1, s1, false)

/-- Split off the unit token: the longest run of characters that are
neither a dot nor an ASCII digit. -/
def takeUnit : List Char → List Char × List Char
  | [] => ([], [])
  | c :: rest =>
    if c == '.' || c.isDigit then ([], c :: rest)
    else
      match takeUnit rest with
      | (u, r) => (c :: u, r)

/-- Go `time.unitMap`: the recognized duration units in nanoseconds. -/
def unitMap (u : List Char) : Option Nat :=
  if u = ['n', 's'] then some 1
  else if u = ['u', 's'] then some 1000
  else if u = ['µ', 's'] then some 1000
  else if u = ['μ', 's'] then some 1000
  else if u = ['m', 's'] then some 1000000
  else if u = ['s'] then some 1000000000
  else if u = ['m'] then some 60000000000
  else if u = ['h'] then some 3600000000000
  else none

/-- The component loop of Go `time.ParseDuration`: repeatedly consume
`[0-9]*(\.[0-9]*)?unit` and accumulate nanoseconds `d` with the uint64
overflow checks of the original. Each successful round consumes at
least the unit token, so fuel `length + 1` never runs out; the
fractional contribution `uint64(float64(f) * (float64(unit)/scale))`
is modelled exactly as `f * unit / scale` (truncated division). -/
def parseDurLoop : Nat → List Char → Nat → Option Nat
  | 0, _, _ => none
  | _ + 1, [], d => some d
  | fuel + 1, c :: s0, d =>
    if !(c == '.' || c.isDigit) then none
    else
      match leadingInt (c :: s0) 0 with
      | none => none
      | some (v, s1) =>
        let pre := (c :: s0).length != s1.length
        match consumeFraction s1 with
        | (f, scale, s2, post) =>
          if !pre && !post then none
          else
            match takeUnit s2 with
            | (u, s3) =>
              if u.isEmpty then none
              else
                match unitMap u with
                | none => none
                | some unit =>
                  if v > 2 ^ 63 / unit then none
                  else
                    let v1 := v * unit
                    let v2 := if f > 0 then v1 + f * unit / scale else v1
                    if f > 0 && decide (v2 > 2 ^ 63) then none
                    else
                      let d1 := d + v2
                      if d1 > 2 ^ 63 then none
                      else parseDurLoop fuel s3 d1

/-- Go `time.ParseDuration`: optional sign, the special case `"0"`,
then the component loop; the final value is negated under a leading
minus, and a positive total above `1<<63 - 1` is an overflow error. -/
def goParseDuration (str : String) : Option Int :=
  let s0 := str.data
  let signed :=
    match s0 with
    | c :: rest =>
      if c = '-' then (true, rest)
      else if c = '+' then (false, rest)
      else (false, s0)
    | [] => (false, s0)
  let neg := signed.1
  let s1 := signed.2
  if s1 = ['0'] then some 0
  else if s1 = [] then none
  else
    match parseDurLoop (s1.length + 1) s1 0 with
    | none => none
    | some d =>
      if neg then some (-(d : Int))
      else if d > 2 ^ 63 - 1 then none
      else some (d : Int)

/-- The TTL-override annotation key. -/
def AnnotTTL : String := "preview-sweeper.maxsauce.com/ttl"

/-- The hold annotation key. -/
def AnnotHold : String := "preview-sweeper.maxsauce.com/hold"

/-- A Go `map[string]string` that may be nil: `none` is the nil map. -/
abbrev AnnotMap := Option (List (String × String))

/-- Comma-ok lookup on the underlying association list. -/
def lookupA : List (String × String) → String → Option String
  | [], _ => none
  | p :: rest, k => if p.1 = k then some p.2 else lookupA rest k

/-- Comma-ok lookup on a possibly-nil map. -/
def mapLookup (m : AnnotMap) (k : String) : Option String :=
  match m with
  | none => none
  | some l => lookupA l k

/-- Go map indexing `m[k]`: the zero value `""` when absent or nil. -/
def mapIndex (m : AnnotMap) (k : String) : String :=
  (mapLookup m k).getD ""

/-- Two's-complement wraparound into the signed 64-bit range, the
semantics of Go's int64 arithmetic such as
`time.Duration(n) * time.Hour`. -/
def wrap64 (x : Int) : Int :=
  (x + 2 ^ 63) % 2 ^ 64 - 2 ^ 63

/-- `resolveTTL` from the controller: a present, non-empty (after
trimming) TTL annotation is parsed first as a duration, then as a bare
integer of hours; on success the value is returned with source
`"annotation"`, otherwise the default with source `"default"`. The
hours product `time.Duration(n) * time.Hour` is int64 multiplication
and wraps for `|n| > 2562047`. -/
def resolveTTL (annots : AnnotMap) (defaultTTL : Int) : Int × String :=
  match annots with
  | none => (defaultTTL, "default")
  | some l =>
    match lookupA l AnnotTTL with
    | none => (defaultTTL, "default")
    | some raw =>
      let val := goTrimSpace raw
      if val = "" then (defaultTTL, "default")
      else
        match goParseDuration val with
        | some d => (d, "annotation")
        | none =>
          match goAtoi val with
          | some n => (wrap64 (n * Hour), "annotation")
          | none => (defaultTTL, "default")

/-- Go `strings.HasPrefix` on the characters of the two strings. -/
def hasPfx (p s : String) : Bool :=
  go p.data s.data
where
  go : List Char → List Char → Bool
    | [], _ => true
    | _ :: _, [] => false
    | c :: ps, d :: ss => c == d && go ps ss

/-- The fields of a `corev1.Namespace` the sweep pass reads. The label
set is omitted: labels are consumed only by the store-side selector of
the List call, never by the pass itself. -/
structure NsObj where
  name : String
  creationTimestamp : Int
  deletionTimestamp : Option Int
  annots : AnnotMap
deriving DecidableEq

/-- The `NamespaceSweeper` configuration fields read by a pass:
`TTL`, `DryRun`, and whether `Recorder` is non-nil. -/
structure Sweeper where
  ttl : Int
  dryRun : Bool
  hasRecorder : Bool
deriving DecidableEq

/-- The registered metrics. Gauges hold the last pass's counts; the
histogram is modelled by its number of observations (the observed
wall-clock seconds are real time, outside the model). -/
structure Metrics where
  sweepsTotal : Nat
  sweepDurObs : Nat
  listErrorsTotal : Nat
  lastScanned : Nat
  lastCandidates : Nat
  lastExpired : Nat
  lastDeleted : Nat
  deletedDeleted : Nat
  deletedDryRun : Nat
  deletedError : Nat
deriving DecidableEq

/-- All-zero metrics, used as a concrete starting state. -/
def zeroMetrics : Metrics :=
  { sweepsTotal := 0, sweepDurObs := 0, listErrorsTotal := 0,
    lastScanned := 0, lastCandidates := 0, lastExpired := 0,
    lastDeleted := 0, deletedDeleted := 0, deletedDryRun := 0,
    deletedError := 0 }

/-- The in-flight state of one `SweepOnce` invocation: the local
counters (the local `scanned` variable is initialized to 0 and never
incremented in the source), the metrics, the delete requests issued to
the store, and the events emitted through the recorder. -/
structure PassState where
  scanned : Nat
  candidates : Nat
  expired : Nat
  deleted : Nat
  m : Metrics
  deleteReqs : List String
  events : List (String × String)
deriving DecidableEq

/-- Fresh pass state over a metrics snapshot. -/
def initialPassState (m0 : Metrics) : PassState :=
  { scanned := 0, candidates := 0, expired := 0, deleted := 0,
    m := m0, deleteReqs := [], events := [] }

/-- The body of the per-namespace loop of `SweepOnce` (lines 168-225):
exclusions, candidacy, TTL resolution, hold, non-positive TTL, age
check, then dry-run simulation or deletion. `deleteOk name` is the
store's response to `Client.Delete`. -/
def sweepStep (s : Sweeper) (now : Int) (deleteOk : String → Bool)
    (st : PassState) (ns : NsObj) : PassState :=
  if ns.deletionTimestamp ≠ none then st
  else if ns.name = "kube-system" ∨ ns.name = "default" ∨ ns.name = "kube-public" then st
  else if ¬ (hasPfx "preview-" ns.name) then st
  else
    let st1 := { st with candidates := st.candidates + 1 }
    let effectiveTTL := (resolveTTL ns.annots s.ttl).1
    if mapIndex ns.annots AnnotHold = "true" then st1
    else if effectiveTTL ≤ 0 then st1
    else
      let age := now - ns.creationTimestamp
      if age ≤ effectiveTTL then st1
      else
        let st2 := { st1 with expired := st1.expired + 1 }
        if s.dryRun then
          let st3 := { st2 with m := { st2.m with deletedDryRun := st2.m.deletedDryRun + 1 } }
          if s.hasRecorder then
            { st3 with events := st3.events ++ [("NamespaceCleanupDryRun", ns.name)] }
          else st3
        else
          let st3 := { st2 with deleteReqs := st2.deleteReqs ++ [ns.name] }
          if ¬ deleteOk ns.name then
            { st3 with m := { st3.m with deletedError := st3.m.deletedError + 1 } }
          else
            let st4 := { st3 with
              deleted := st3.deleted + 1,
              m := { st3.m with deletedDeleted := st3.m.deletedDeleted + 1 } }
            if s.hasRecorder then
              { st4 with events := st4.events ++ [("NamespaceCleanup", ns.name)] }
            else st4

/-- `SweepOnce`: `listResult` is the store's answer to the label-selected
List call (`none` is a list error). On error: list-error counter, all
four gauges zeroed, early return. Otherwise the per-namespace loop runs
over the returned items, the gauges are set from the pass counters, and
the deferred block records the pass counter and a duration observation
on every path. -/
def sweepOnce (s : Sweeper) (now : Int) (listResult : Option (List NsObj))
    (deleteOk : String → Bool) (m0 : Metrics) : PassState :=
  match listResult with
  | none =>
    let st := initialPassState m0
    let st1 := { st with m := { st.m with
      listErrorsTotal := st.m.listErrorsTotal + 1,
      lastScanned := 0, lastCandidates := 0, lastExpired := 0, lastDeleted := 0 } }
    { st1 with m := { st1.m with
      sweepsTotal := st1.m.sweepsTotal + 1,
      sweepDurObs := st1.m.sweepDurObs + 1 } }
  | some items =>
    let st := initialPassState m0
    let st1 := { st with m := { st.m with lastScanned := items.length } }
    let st2 := items.foldl (sweepStep s now deleteOk) st1
    let st3 := { st2 with m := { st2.m with
      lastCandidates := st2.candidates,
      lastExpired := st2.expired,
      lastDeleted := st2.deleted } }
    { st3 with m := { st3.m with
      sweepsTotal := st3.m.sweepsTotal + 1,
      sweepDurObs := st3.m.sweepDurObs + 1 } }

/-- Go's float64-to-integer conversion: truncation toward zero, here
of an exact rational (`q.den` is positive and `q` is in lowest terms,
so T-division of numerator by denominator truncates toward zero). -/
def truncQ (q : ℚ) : Int :=
  Int.tdiv q.num (q.den : Int)

/-- Half an ulp at unit scale for binary64: `2 ^ (-53)`. -/
def eps53 : ℚ := 1 / 2 ^ 53

/-- Floor of the base-2 logarithm of a positive rational, computed from
the bit lengths of numerator and denominator with a one-step
correction. -/
def floorLog2 (x : ℚ) : Int :=
  if x < 2 ^ ((Nat.log2 x.num.toNat : Int) - (Nat.log2 x.den : Int)) then
    (Nat.log2 x.num.toNat : Int) - (Nat.log2 x.den : Int) - 1
  else (Nat.log2 x.num.toNat : Int) - (Nat.log2 x.den : Int)

/-- Round a rational to the nearest integer, ties to even — the IEEE
754 default rounding used by Go's float64 arithmetic. -/
def rne (m : ℚ) : Int :=
  if m - ⌊m⌋ < 1 / 2 then ⌊m⌋
  else if 1 / 2 < m - ⌊m⌋ then ⌊m⌋ + 1
  else if ⌊m⌋ % 2 = 0 then ⌊m⌋ else ⌊m⌋ + 1

/-- IEEE 754 binary64 rounding of an exact rational: round to nearest,
ties to even, 53-bit significand. The exponent is unbounded (no
overflow to infinity, no subnormal flushing), which is faithful for
every magnitude arising from int64 durations and ordinary jitter
fractions. -/
def fl53 (x : ℚ) : ℚ :=
  if x = 0 then 0
  else
    (if x < 0 then (-1 : ℚ) else 1) *
      (rne (|x| / 2 ^ (floorLog2 |x| - 52)) : ℚ) * 2 ^ (floorLog2 |x| - 52)

/-- `withJitter`: for non-positive `pct` return `base`; otherwise pick
the sign from the parity of the current nanosecond clock and move
`base` by `delta/2` where `delta = Duration(float64(base) * pct)`.
The int64-to-float64 conversion of `base` and the float64 product are
both correctly-rounded (`fl53`); Go's conversion back to `Duration`
truncates toward zero (`truncQ`), as does the integer division `/2`
(`Int.tdiv`). -/
def withJitter (base : Int) (pct : ℚ) (nowNanos : Int) : Int :=
  if pct ≤ 0 then base
  else
    let sign : Int := if nowNanos % 2 = 1 then -1 else 1
    let delta : Int := truncQ (fl53 (fl53 (base : ℚ) * pct))
    base + Int.tdiv (sign * delta) 2

/-- Claim C9: a namespace returned by the List call that is already
marked deletion-in-progress is excluded before candidacy counting: the
per-namespace step leaves the whole pass state unchanged, so it is
never counted into the candidates count and no further evaluation
(hold, TTL, expiration, deletion) touches it. -/
theorem deletion_in_progress_excluded (s : Sweeper) (now : Int)
    (deleteOk : String → Bool) (st : PassState) (ns : NsObj)
    (h : ns.deletionTimestamp ≠ none) :
    sweepStep s now deleteOk st ns = st := by
  unfold sweepStep
  rw [if_pos h]

/-- Witness for C9 at a concrete deleting namespace. -/
theorem deletion_in_progress_excluded_witness :
    sweepStep { ttl := Hour, dryRun := false, hasRecorder := false } (2 * Hour)
      (fun _ => true) (initialPassState zeroMetrics)
      { name := "preview-doomed", creationTimestamp := 0,
        deletionTimestamp := some 1, annots := none }
      = initialPassState zeroMetrics :=
  deletion_in_progress_excluded _ _ _ _ _ (by decide)

/-- Claim C3: a processed namespace whose hold annotation equals
`"true"` is never counted as expired and never receives a delete
request, for every age, effective TTL and dry-run setting: the step
changes nothing but (possibly) the candidates count. -/
theorem hold_suppresses_deletion (s : Sweeper) (now : Int)
    (deleteOk : String → Bool) (st : PassState) (ns : NsObj)
    (h : mapIndex ns.annots AnnotHold = "true") :
    (sweepStep s now deleteOk st ns).expired = st.expired ∧
    (sweepStep s now deleteOk st ns).deleted = st.deleted ∧
    (sweepStep s now deleteOk st ns).deleteReqs = st.deleteReqs ∧
    (sweepStep s now deleteOk st ns).m = st.m ∧
    (sweepStep s now deleteOk st ns).events = st.events := by
  simp only [sweepStep]
  split_ifs <;> first
  | exact ⟨rfl, rfl, rfl, rfl, rfl⟩
  | exact absurd h (by assumption)

/-- Witness for C3: a held, long-expired namespace in a live pass. -/
theorem hold_suppresses_deletion_witness :
    ((sweepStep { ttl := Second, dryRun := false, hasRecorder := false } (2 * Hour)
        (fun _ => true) (initialPassState zeroMetrics)
        { name := "preview-held-1", creationTimestamp := 0,
          deletionTimestamp := none,
          annots := some [(AnnotHold, "true")] }).expired
      = (initialPassState zeroMetrics).expired) ∧
    ((sweepStep { ttl := Second, dryRun := false, hasRecorder := false } (2 * Hour)
        (fun _ => true) (initialPassState zeroMetrics)
        { name := "preview-held-1", creationTimestamp := 0,
          deletionTimestamp := none,
          annots := some [(AnnotHold, "true")] }).deleteReqs
      = (initialPassState zeroMetrics).deleteReqs) :=
  ⟨(hold_suppresses_deletion _ _ _ _ _ (by decide)).1,
   (hold_suppresses_deletion _ _ _ _ _ (by decide)).2.2.1⟩

/-- Claim C4: a candidate whose effective TTL (as computed by
`resolveTTL`) is zero or negative is never counted as expired and never
receives a delete request, whatever its age: the step changes nothing
but (possibly) the candidates count. -/
theorem nonpositive_ttl_never_expires (s : Sweeper) (now : Int)
    (deleteOk : String → Bool) (st : PassState) (ns : NsObj)
    (h : (resolveTTL ns.annots s.ttl).1 ≤ 0) :
    (sweepStep s now deleteOk st ns).expired = st.expired ∧
    (sweepStep s now deleteOk st ns).deleted = st.deleted ∧
    (sweepStep s now deleteOk st ns).deleteReqs = st.deleteReqs ∧
    (sweepStep s now deleteOk st ns).m = st.m ∧
    (sweepStep s now deleteOk st ns).events = st.events := by
  simp only [sweepStep]
  split_ifs <;> first
  | exact ⟨rfl, rfl, rfl, rfl, rfl⟩
  | exact absurd h (by assumption)

/-- Witness for C4: an aeons-old namespace with TTL annotation `"0s"`. -/
theorem nonpositive_ttl_never_expires_witness :
    ((sweepStep { ttl := Second, dryRun := false, hasRecorder := false } (1000 * Hour)
        (fun _ => true) (initialPassState zeroMetrics)
        { name := "preview-forever", creationTimestamp := 0,
          deletionTimestamp := none,
          annots := some [(AnnotTTL, "0s")] }).expired
      = (initialPassState zeroMetrics).expired) ∧
    ((sweepStep { ttl := Second, dryRun := false, hasRecorder := false } (1000 * Hour)
        (fun _ => true) (initialPassState zeroMetrics)
        { name := "preview-forever", creationTimestamp := 0,
          deletionTimestamp := none,
          annots := some [(AnnotTTL, "0s")] }).deleteReqs
      = (initialPassState zeroMetrics).deleteReqs) :=
  ⟨(nonpositive_ttl_never_expires _ _ _ _ _ (by decide)).1,
   (nonpositive_ttl_never_expires _ _ _ _ _ (by decide)).2.2.1⟩

/-- Claim C5: a pass whose List call errors increments the list-error
counter, zeroes all four per-pass gauges, issues no delete request,
emits no event, processes no namespace (all local counters stay 0) and
returns early, while the deferred block still records the pass counter
and a pass-duration observation. -/
theorem list_error_aborts_pass (s : Sweeper) (now : Int)
    (deleteOk : String → Bool) (m0 : Metrics) :
    (sweepOnce s now none deleteOk m0).m.listErrorsTotal = m0.listErrorsTotal + 1 ∧
    (sweepOnce s now none deleteOk m0).m.lastScanned = 0 ∧
    (sweepOnce s now none deleteOk m0).m.lastCandidates = 0 ∧
    (sweepOnce s now none deleteOk m0).m.lastExpired = 0 ∧
    (sweepOnce s now none deleteOk m0).m.lastDeleted = 0 ∧
    (sweepOnce s now none deleteOk m0).deleteReqs = [] ∧
    (sweepOnce s now none deleteOk m0).events = [] ∧
    (sweepOnce s now none deleteOk m0).candidates = 0 ∧
    (sweepOnce s now none deleteOk m0).expired = 0 ∧
    (sweepOnce s now none deleteOk m0).deleted = 0 ∧
    (sweepOnce s now none deleteOk m0).m.sweepsTotal = m0.sweepsTotal + 1 ∧
    (sweepOnce s now none deleteOk m0).m.sweepDurObs = m0.sweepDurObs + 1 :=
  ⟨rfl, rfl, rfl, rfl, rfl, rfl, rfl, rfl, rfl, rfl, rfl, rfl⟩

/-- Claim C2, counterexample: the trimmed value `"-5"` fails the
duration parse and is not a non-negative integer, yet `resolveTTL` does
not fall back to the default: Go's `strconv.Atoi` also accepts negative
integers, so the annotation wins with value `-5` hours. -/
theorem resolveTTL_negative_int_cex :
    goParseDuration (goTrimSpace "-5") = none ∧
    goAtoi (goTrimSpace "-5") = some (-5) ∧
    ¬ (0 : Int) ≤ -5 ∧
    resolveTTL (some [(AnnotTTL, "-5")]) (72 * Hour) = ((-5) * Hour, "annotation") ∧
    resolveTTL (some [(AnnotTTL, "-5")]) (72 * Hour) ≠ (72 * Hour, "default") :=
  ⟨by decide, by decide, by decide, by decide, by decide⟩

/-- Claim C2 as amended: if the TTL annotation is absent (including the
nil map), or empty after trimming, or its trimmed value parses neither
as a duration expression nor as a bare integer accepted by `Atoi`
(negative and plus-signed integers included), then `resolveTTL` returns
the supplied default with source `"default"`; no input is an error, as
the resolver is total. -/
theorem resolveTTL_fallback_default (annots : AnnotMap) (dft : Int)
    (h : ∀ raw, mapLookup annots AnnotTTL = some raw →
        goTrimSpace raw = "" ∨
        (goParseDuration (goTrimSpace raw) = none ∧ goAtoi (goTrimSpace raw) = none)) :
    resolveTTL annots dft = (dft, "default") := by
  cases annots with
  | none => rfl
  | some l =>
    cases hL : lookupA l AnnotTTL with
    | none => simp [resolveTTL, hL]
    | some raw =>
      have h2 := h raw (by simp [mapLookup, hL])
      by_cases hv : goTrimSpace raw = ""
      · simp [resolveTTL, hL, hv]
      · rcases h2 with he | ⟨hpd, hat⟩
        · exact absurd he hv
        · simp [resolveTTL, hL, hv, hpd, hat]

/-- Witness for the amended C2 at the unparseable annotation `"soon"`. -/
theorem resolveTTL_fallback_default_witness :
    resolveTTL (some [(AnnotTTL, "soon")]) (72 * Hour) = (72 * Hour, "default") := by
  refine resolveTTL_fallback_default _ _ ?_
  intro raw hr
  have hv : raw = "soon" := by
    simpa [mapLookup, lookupA] using hr.symm
  rw [hv]
  exact Or.inr ⟨by decide, by decide⟩

/-- Values already inside the signed 64-bit range are fixed by the
wraparound. -/
theorem wrap64_eq_self {x : Int} (h1 : -(2 ^ 63) ≤ x) (h2 : x ≤ 2 ^ 63 - 1) :
    wrap64 x = x := by
  have e63 : (2 : Int) ^ 63 = 9223372036854775808 := by norm_num
  have e64 : (2 : Int) ^ 64 = 18446744073709551616 := by norm_num
  unfold wrap64
  rw [e63, e64] at *
  omega

/-- Claim C7, counterexample: the trimmed value `"2562048"` fails the
duration parse and parses as the non-negative integer 2562048, but the
program computes `time.Duration(2562048) * time.Hour` in int64, which
wraps to -9223371273709551616 ns — not 2562048 hours. -/
theorem resolveTTL_hours_wrap_cex :
    goParseDuration (goTrimSpace "2562048") = none ∧
    goAtoi (goTrimSpace "2562048") = some 2562048 ∧
    (0 : Int) ≤ 2562048 ∧
    resolveTTL (some [(AnnotTTL, "2562048")]) (72 * Hour)
      = (-9223371273709551616, "annotation") ∧
    resolveTTL (some [(AnnotTTL, "2562048")]) (72 * Hour)
      ≠ (2562048 * Hour, "annotation") :=
  ⟨by decide, by decide, by decide, by decide, by decide⟩

/-- Claim C7 as amended: when the TTL annotation is present, a trimmed
value that parses as a duration is returned exactly with source
`"annotation"`; a trimmed value that fails the duration parse but
parses as a bare non-negative integer `n` is returned as the int64
product `n * Hour` — which is exactly `n` hours whenever that product
fits in int64 (`n ≤ 2562047`), and wraps around like Go's
`time.Duration` multiplication beyond that — with source
`"annotation"`. -/
theorem resolveTTL_annot_values (annots : AnnotMap) (dft : Int) (raw : String)
    (hL : mapLookup annots AnnotTTL = some raw) :
    (∀ d : Int, goParseDuration (goTrimSpace raw) = some d →
        resolveTTL annots dft = (d, "annotation")) ∧
    (∀ n : Int, goParseDuration (goTrimSpace raw) = none →
        goAtoi (goTrimSpace raw) = some n → 0 ≤ n →
        resolveTTL annots dft = (wrap64 (n * Hour), "annotation")) ∧
    (∀ n : Int, goParseDuration (goTrimSpace raw) = none →
        goAtoi (goTrimSpace raw) = some n → 0 ≤ n → n * Hour ≤ 2 ^ 63 - 1 →
        resolveTTL annots dft = (n * Hour, "annotation")) := by
  cases annots with
  | none => simp [mapLookup] at hL
  | some l =>
    simp only [mapLookup] at hL
    have hDur : ∀ d : Int, goParseDuration (goTrimSpace raw) = some d →
        resolveTTL (some l) dft = (d, "annotation") := by
      intro d hd
      have hv : goTrimSpace raw ≠ "" := by
        intro he
        rw [he] at hd
        exact Option.noConfusion ((show goParseDuration "" = none from rfl) ▸ hd)
      simp [resolveTTL, hL, hv, hd]
    have hInt : ∀ n : Int, goParseDuration (goTrimSpace raw) = none →
        goAtoi (goTrimSpace raw) = some n → 0 ≤ n →
        resolveTTL (some l) dft = (wrap64 (n * Hour), "annotation") := by
      intro n hnone hatoi _
      have hv : goTrimSpace raw ≠ "" := by
        intro he
        rw [he] at hatoi
        exact Option.noConfusion ((show goAtoi "" = none from rfl) ▸ hatoi)
      simp [resolveTTL, hL, hv, hnone, hatoi]
    refine ⟨hDur, hInt, ?_⟩
    intro n hnone hatoi hn hfit
    have hlo : -(2 ^ 63) ≤ n * Hour := by
      have : (0 : Int) ≤ n * Hour := mul_nonneg hn (by norm_num [Hour])
      omega
    rw [hInt n hnone hatoi hn, wrap64_eq_self hlo hfit]

/-- Witness for the amended C7: the duration path on `" 2h45m "` and
the in-range bare integer-of-hours path on `"69"`. -/
theorem resolveTTL_annot_values_witness :
    resolveTTL (some [(AnnotTTL, " 2h45m ")]) (72 * Hour) = (9900 * Second, "annotation") ∧
    resolveTTL (some [(AnnotTTL, "69")]) (72 * Hour) = (69 * Hour, "annotation") :=
  ⟨(resolveTTL_annot_values _ _ " 2h45m " (by decide)).1 (9900 * Second) (by decide),
   (resolveTTL_annot_values _ _ "69" (by decide)).2.2 69 (by decide) (by decide)
     (by decide) (by decide)⟩

/-- Claim C10: hold suppression is an exact string comparison with
`"true"`. A candidate whose hold annotation carries any other value
(`"True"`, `"yes"`, `"1"`, ...) proceeds through TTL and expiration
evaluation as if unheld: here, being expired with a positive TTL
outside dry-run with a succeeding store, it is counted expired and a
delete request for it is issued. -/
theorem hold_requires_exact_true (s : Sweeper) (now : Int)
    (deleteOk : String → Bool) (st : PassState) (ns : NsObj)
    (h1 : ns.deletionTimestamp = none)
    (h2 : ¬(ns.name = "kube-system" ∨ ns.name = "default" ∨ ns.name = "kube-public"))
    (h3 : hasPfx "preview-" ns.name = true)
    (h4 : mapIndex ns.annots AnnotHold ≠ "true")
    (h5 : 0 < (resolveTTL ns.annots s.ttl).1)
    (h6 : (resolveTTL ns.annots s.ttl).1 < now - ns.creationTimestamp)
    (h7 : s.dryRun = false)
    (h8 : deleteOk ns.name = true) :
    (sweepStep s now deleteOk st ns).candidates = st.candidates + 1 ∧
    (sweepStep s now deleteOk st ns).expired = st.expired + 1 ∧
    (sweepStep s now deleteOk st ns).deleted = st.deleted + 1 ∧
    (sweepStep s now deleteOk st ns).deleteReqs = st.deleteReqs ++ [ns.name] ∧
    (sweepStep s now deleteOk st ns).m.deletedDeleted = st.m.deletedDeleted + 1 := by
  have hno : ¬ ns.deletionTimestamp ≠ none := by simp [h1]
  have hTTL : ¬ (resolveTTL ns.annots s.ttl).1 ≤ 0 := not_le.mpr h5
  have hAge : ¬ now - ns.creationTimestamp ≤ (resolveTTL ns.annots s.ttl).1 := not_le.mpr h6
  have hDel : ¬ ¬ deleteOk ns.name = true := by simp [h8]
  simp only [sweepStep, hno, h2, h3, h4, hTTL, hAge, h7, hDel,
    if_false, if_true, not_false_eq_true, not_true_eq_false, ite_false, ite_true]
  by_cases hr : s.hasRecorder = true <;> simp [hr]

/-- Witness for C10: hold value `"True"` does not suppress deletion. -/
theorem hold_requires_exact_true_witness :
    ((sweepStep { ttl := Hour, dryRun := false, hasRecorder := false } (3 * Hour)
        (fun _ => true) (initialPassState zeroMetrics)
        { name := "preview-x", creationTimestamp := 0, deletionTimestamp := none,
          annots := some [(AnnotHold, "True")] }).deleted
      = (initialPassState zeroMetrics).deleted + 1) ∧
    ((sweepStep { ttl := Hour, dryRun := false, hasRecorder := false } (3 * Hour)
        (fun _ => true) (initialPassState zeroMetrics)
        { name := "preview-x", creationTimestamp := 0, deletionTimestamp := none,
          annots := some [(AnnotHold, "True")] }).deleteReqs
      = (initialPassState zeroMetrics).deleteReqs ++ ["preview-x"]) :=
  ⟨(hold_requires_exact_true _ _ _ _ _ (by decide) (by decide) (by decide) (by decide)
      (by decide) (by decide) (by decide) (by decide)).2.2.1,
   (hold_requires_exact_true _ _ _ _ _ (by decide) (by decide) (by decide) (by decide)
      (by decide) (by decide) (by decide) (by decide)).2.2.2.1⟩

/-- Claim C6: when an expired, non-held candidate's delete request
fails, the step increments the error-tagged outcome counter, leaves the
deleted count and the deleted-tagged counter untouched, still issues
exactly the one request, and the pass goes on to fold over all
remaining items of the same list — one failure never aborts the pass. -/
theorem delete_failure_isolated (s : Sweeper) (now : Int)
    (deleteOk : String → Bool) (st : PassState) (ns : NsObj) (rest : List NsObj)
    (h1 : ns.deletionTimestamp = none)
    (h2 : ¬(ns.name = "kube-system" ∨ ns.name = "default" ∨ ns.name = "kube-public"))
    (h3 : hasPfx "preview-" ns.name = true)
    (h4 : mapIndex ns.annots AnnotHold ≠ "true")
    (h5 : 0 < (resolveTTL ns.annots s.ttl).1)
    (h6 : (resolveTTL ns.annots s.ttl).1 < now - ns.creationTimestamp)
    (h7 : s.dryRun = false)
    (h8 : deleteOk ns.name = false) :
    (sweepStep s now deleteOk st ns).m.deletedError = st.m.deletedError + 1 ∧
    (sweepStep s now deleteOk st ns).deleted = st.deleted ∧
    (sweepStep s now deleteOk st ns).m.deletedDeleted = st.m.deletedDeleted ∧
    (sweepStep s now deleteOk st ns).expired = st.expired + 1 ∧
    (sweepStep s now deleteOk st ns).deleteReqs = st.deleteReqs ++ [ns.name] ∧
    List.foldl (sweepStep s now deleteOk) st (ns :: rest)
      = List.foldl (sweepStep s now deleteOk) (sweepStep s now deleteOk st ns) rest := by
  have hno : ¬ ns.deletionTimestamp ≠ none := by simp [h1]
  have hTTL : ¬ (resolveTTL ns.annots s.ttl).1 ≤ 0 := not_le.mpr h5
  have hAge : ¬ now - ns.creationTimestamp ≤ (resolveTTL ns.annots s.ttl).1 := not_le.mpr h6
  refine ⟨?_, ?_, ?_, ?_, ?_, rfl⟩ <;>
    simp [sweepStep, hno, h2, h3, h4, hTTL, hAge, h7, h8]

/-- Witness for C6: a failing store delete on an expired candidate,
followed by one further item that is still processed. -/
theorem delete_failure_isolated_witness :
    ((sweepStep { ttl := Hour, dryRun := false, hasRecorder := false } (3 * Hour)
        (fun _ => false) (initialPassState zeroMetrics)
        { name := "preview-fail", creationTimestamp := 0, deletionTimestamp := none,
          annots := none }).m.deletedError
      = (initialPassState zeroMetrics).m.deletedError + 1) ∧
    ((sweepStep { ttl := Hour, dryRun := false, hasRecorder := false } (3 * Hour)
        (fun _ => false) (initialPassState zeroMetrics)
        { name := "preview-fail", creationTimestamp := 0, deletionTimestamp := none,
          annots := none }).deleted
      = (initialPassState zeroMetrics).deleted) ∧
    (List.foldl (sweepStep { ttl := Hour, dryRun := false, hasRecorder := false }
        (3 * Hour) (fun _ => false)) (initialPassState zeroMetrics)
        [{ name := "preview-fail", creationTimestamp := 0, deletionTimestamp := none,
           annots := none },
         { name := "preview-later", creationTimestamp := 0, deletionTimestamp := none,
           annots := none }]
      = List.foldl (sweepStep { ttl := Hour, dryRun := false, hasRecorder := false }
          (3 * Hour) (fun _ => false))
          (sweepStep { ttl := Hour, dryRun := false, hasRecorder := false } (3 * Hour)
            (fun _ => false) (initialPassState zeroMetrics)
            { name := "preview-fail", creationTimestamp := 0, deletionTimestamp := none,
              annots := none })
          [{ name := "preview-later", creationTimestamp := 0, deletionTimestamp := none,
             annots := none }]) :=
  ⟨(delete_failure_isolated _ _ _ _ _ [] (by decide) (by decide) (by decide) (by decide)
      (by decide) (by decide) (by decide) (by decide)).1,
   (delete_failure_isolated _ _ _ _ _ [] (by decide) (by decide) (by decide) (by decide)
      (by decide) (by decide) (by decide) (by decide)).2.1,
   (delete_failure_isolated { ttl := Hour, dryRun := false, hasRecorder := false }
      (3 * Hour) (fun _ => false) (initialPassState zeroMetrics)
      { name := "preview-fail", creationTimestamp := 0, deletionTimestamp := none,
        annots := none }
      [{ name := "preview-later", creationTimestamp := 0, deletionTimestamp := none,
         annots := none }]
      (by decide) (by decide) (by decide) (by decide)
      (by decide) (by decide) (by decide) (by decide)).2.2.2.2.2⟩

/-- One dry-run step never issues a delete request, never changes the
deleted count, and moves the dry-run outcome counter in lockstep with
the expired count. -/
theorem dryRun_step_invariant (s : Sweeper) (now : Int) (deleteOk : String → Bool)
    (h : s.dryRun = true) (st : PassState) (ns : NsObj) :
    (sweepStep s now deleteOk st ns).deleteReqs = st.deleteReqs ∧
    (sweepStep s now deleteOk st ns).deleted = st.deleted ∧
    (sweepStep s now deleteOk st ns).m.deletedDryRun + st.expired
      = st.m.deletedDryRun + (sweepStep s now deleteOk st ns).expired := by
  simp only [sweepStep]
  split_ifs <;> simp_all <;> omega

/-- Folding dry-run steps over any item list preserves the C1 invariant. -/
theorem dryRun_fold_invariant (s : Sweeper) (now : Int) (deleteOk : String → Bool)
    (h : s.dryRun = true) (items : List NsObj) (st : PassState) :
    (items.foldl (sweepStep s now deleteOk) st).deleteReqs = st.deleteReqs ∧
    (items.foldl (sweepStep s now deleteOk) st).deleted = st.deleted ∧
    (items.foldl (sweepStep s now deleteOk) st).m.deletedDryRun + st.expired
      = st.m.deletedDryRun + (items.foldl (sweepStep s now deleteOk) st).expired := by
  induction items generalizing st with
  | nil => exact ⟨rfl, rfl, rfl⟩
  | cons ns rest ih =>
    simp only [List.foldl_cons]
    obtain ⟨a1, a2, a3⟩ := dryRun_step_invariant s now deleteOk h st ns
    obtain ⟨b1, b2, b3⟩ := ih (sweepStep s now deleteOk st ns)
    exact ⟨b1.trans a1, b2.trans a2, by omega⟩

/-- Claim C1, counterexample: a dry-run pass over one expired, non-held
candidate issues no delete request and increments the dry-run outcome
counter, but the pass's deleted count (and the last-deleted gauge)
stays 0 while the expired count is 1 — the would-be-removed namespace
is not counted into the deleted count. -/
theorem dryRun_deleted_count_cex :
    (sweepOnce { ttl := Hour, dryRun := true, hasRecorder := false } (2 * Hour)
      (some [{ name := "preview-a", creationTimestamp := 0, deletionTimestamp := none,
               annots := none }]) (fun _ => true) zeroMetrics).expired = 1 ∧
    (sweepOnce { ttl := Hour, dryRun := true, hasRecorder := false } (2 * Hour)
      (some [{ name := "preview-a", creationTimestamp := 0, deletionTimestamp := none,
               annots := none }]) (fun _ => true) zeroMetrics).m.deletedDryRun = 1 ∧
    (sweepOnce { ttl := Hour, dryRun := true, hasRecorder := false } (2 * Hour)
      (some [{ name := "preview-a", creationTimestamp := 0, deletionTimestamp := none,
               annots := none }]) (fun _ => true) zeroMetrics).deleteReqs = [] ∧
    (sweepOnce { ttl := Hour, dryRun := true, hasRecorder := false } (2 * Hour)
      (some [{ name := "preview-a", creationTimestamp := 0, deletionTimestamp := none,
               annots := none }]) (fun _ => true) zeroMetrics).deleted = 0 ∧
    (sweepOnce { ttl := Hour, dryRun := true, hasRecorder := false } (2 * Hour)
      (some [{ name := "preview-a", creationTimestamp := 0, deletionTimestamp := none,
               annots := none }]) (fun _ => true) zeroMetrics).m.lastDeleted = 0 ∧
    (sweepOnce { ttl := Hour, dryRun := true, hasRecorder := false } (2 * Hour)
      (some [{ name := "preview-a", creationTimestamp := 0, deletionTimestamp := none,
               annots := none }]) (fun _ => true) zeroMetrics).deleted ≠
    (sweepOnce { ttl := Hour, dryRun := true, hasRecorder := false } (2 * Hour)
      (some [{ name := "preview-a", creationTimestamp := 0, deletionTimestamp := none,
               annots := none }]) (fun _ => true) zeroMetrics).expired :=
  ⟨by decide, by decide, by decide, by decide, by decide, by decide⟩

/-- Claim C1 as amended: in a dry-run pass every expired, non-held
candidate increments the dry-run-tagged outcome counter and no delete
request is ever issued, but such candidates are not counted into the
pass's deleted count: that count, and therefore the last-deleted gauge
published at pass completion, stays 0 and records only actual
successful deletions. -/
theorem dryRun_pass_outcomes (s : Sweeper) (now : Int) (items : List NsObj)
    (deleteOk : String → Bool) (m0 : Metrics) (h : s.dryRun = true) :
    (sweepOnce s now (some items) deleteOk m0).deleteReqs = [] ∧
    (sweepOnce s now (some items) deleteOk m0).deleted = 0 ∧
    (sweepOnce s now (some items) deleteOk m0).m.lastDeleted = 0 ∧
    (sweepOnce s now (some items) deleteOk m0).m.deletedDryRun
      = m0.deletedDryRun + (sweepOnce s now (some items) deleteOk m0).expired := by
  obtain ⟨a1, a2, a3⟩ := dryRun_fold_invariant s now deleteOk h items
    { scanned := 0, candidates := 0, expired := 0, deleted := 0,
      m := { m0 with lastScanned := items.length }, deleteReqs := [], events := [] }
  simp only [sweepOnce, initialPassState] at *
  exact ⟨a1, a2, by omega, by omega⟩

/-- Witness for the amended C1 on a concrete dry-run pass. -/
theorem dryRun_pass_outcomes_witness :
    (sweepOnce { ttl := Hour, dryRun := true, hasRecorder := true } (2 * Hour)
      (some [{ name := "preview-b", creationTimestamp := 0, deletionTimestamp := none,
               annots := none }]) (fun _ => true) zeroMetrics).deleteReqs = [] ∧
    (sweepOnce { ttl := Hour, dryRun := true, hasRecorder := true } (2 * Hour)
      (some [{ name := "preview-b", creationTimestamp := 0, deletionTimestamp := none,
               annots := none }]) (fun _ => true) zeroMetrics).deleted = 0 ∧
    (sweepOnce { ttl := Hour, dryRun := true, hasRecorder := true } (2 * Hour)
      (some [{ name := "preview-b", creationTimestamp := 0, deletionTimestamp := none,
               annots := none }]) (fun _ => true) zeroMetrics).m.lastDeleted = 0 ∧
    (sweepOnce { ttl := Hour, dryRun := true, hasRecorder := true } (2 * Hour)
      (some [{ name := "preview-b", creationTimestamp := 0, deletionTimestamp := none,
               annots := none }]) (fun _ => true) zeroMetrics).m.deletedDryRun
      = zeroMetrics.deletedDryRun +
        (sweepOnce { ttl := Hour, dryRun := true, hasRecorder := true } (2 * Hour)
          (some [{ name := "preview-b", creationTimestamp := 0, deletionTimestamp := none,
                   annots := none }]) (fun _ => true) zeroMetrics).expired :=
  dryRun_pass_outcomes { ttl := Hour, dryRun := true, hasRecorder := true } (2 * Hour)
    [{ name := "preview-b", creationTimestamp := 0, deletionTimestamp := none,
       annots := none }] (fun _ => true) zeroMetrics (by decide)

/-- Truncation toward zero of a non-negative rational coincides with
the floor, hence is non-negative and bounded by the rational itself. -/
theorem truncQ_nonneg {q : ℚ} (h : 0 ≤ q) :
    0 ≤ truncQ q ∧ ((truncQ q : Int) : ℚ) ≤ q := by
  have hnum : 0 ≤ q.num := Rat.num_nonneg.mpr h
  have hden : (0 : Int) ≤ (q.den : Int) := by positivity
  have hfl : truncQ q = ⌊q⌋ := by
    rw [truncQ, Int.tdiv_eq_ediv hnum hden, Rat.floor_def]
  constructor
  · rw [hfl]; exact Int.floor_nonneg.mpr h
  · rw [hfl]; exact Int.floor_le q

/-- The computed `floorLog2` brackets a positive rational between two
consecutive powers of two. -/
theorem floorLog2_spec {x : ℚ} (hx : 0 < x) :
    (2 : ℚ) ^ floorLog2 x ≤ x ∧ x < (2 : ℚ) ^ (floorLog2 x + 1) := by
  have hnum : 0 < x.num := Rat.num_pos.mpr hx
  have hden : 0 < x.den := x.pos
  set lp := Nat.log2 x.num.toNat with hlp
  set lq := Nat.log2 x.den with hlq
  have hnp : x.num.toNat ≠ 0 := by omega
  have hd0 : x.den ≠ 0 := by omega
  have p1 : 2 ^ lp ≤ x.num.toNat := Nat.log2_self_le hnp
  have p2 : x.num.toNat < 2 ^ (lp + 1) := Nat.lt_log2_self
  have q1 : 2 ^ lq ≤ x.den := Nat.log2_self_le hd0
  have q2 : x.den < 2 ^ (lq + 1) := Nat.lt_log2_self
  have hPeq : ((x.num.toNat : Int) : ℚ) = (x.num : ℚ) := by
    rw [Int.toNat_of_nonneg hnum.le]
  have hxeq : x = (x.num : ℚ) / (x.den : ℚ) := (Rat.num_div_den x).symm
  have hdenQ : (0 : ℚ) < (x.den : ℚ) := by exact_mod_cast hden
  have hnumQ : (0 : ℚ) < (x.num : ℚ) := by exact_mod_cast hnum
  have P1 : ((2 : ℚ) ^ lp : ℚ) ≤ (x.num : ℚ) := by
    rw [← hPeq]; exact_mod_cast p1
  have P2 : (x.num : ℚ) < (2 : ℚ) ^ (lp + 1) := by
    rw [← hPeq]; exact_mod_cast p2
  have Q1 : ((2 : ℚ) ^ lq : ℚ) ≤ (x.den : ℚ) := by exact_mod_cast q1
  have Q2 : ((x.den : ℚ)) < (2 : ℚ) ^ (lq + 1) := by exact_mod_cast q2
  set e0 : Int := (lp : Int) - (lq : Int) with he0
  have two0 : (2 : ℚ) ≠ 0 := by norm_num
  have hlow : (2 : ℚ) ^ (e0 - 1) < x := by
    have hzp : (2 : ℚ) ^ (e0 - 1) = (2 : ℚ) ^ lp / (2 : ℚ) ^ (lq + 1) := by
      rw [show e0 - 1 = (lp : Int) - ((lq : Int) + 1) by omega, zpow_sub₀ two0]
      norm_cast
    rw [hzp, hxeq, div_lt_div_iff₀ (by positivity) hdenQ]
    calc (2 : ℚ) ^ lp * (x.den : ℚ) ≤ (x.num : ℚ) * (x.den : ℚ) :=
          mul_le_mul_of_nonneg_right P1 hdenQ.le
    _ < (x.num : ℚ) * (2 : ℚ) ^ (lq + 1) :=
          mul_lt_mul_of_pos_left Q2 hnumQ
  have hup : x < (2 : ℚ) ^ (e0 + 1) := by
    have hzp : (2 : ℚ) ^ (e0 + 1) = (2 : ℚ) ^ (lp + 1) / (2 : ℚ) ^ lq := by
      rw [show e0 + 1 = ((lp : Int) + 1) - (lq : Int) by omega, zpow_sub₀ two0]
      norm_cast
    rw [hzp, hxeq, div_lt_div_iff₀ hdenQ (by positivity)]
    calc (x.num : ℚ) * (2 : ℚ) ^ lq ≤ (x.num : ℚ) * (x.den : ℚ) :=
          mul_le_mul_of_nonneg_left Q1 hnumQ.le
    _ < (2 : ℚ) ^ (lp + 1) * (x.den : ℚ) :=
          mul_lt_mul_of_pos_right P2 hdenQ
  unfold floorLog2
  rw [← hlp, ← hlq, ← he0]
  by_cases hc : x < 2 ^ e0
  · rw [if_pos hc]
    constructor
    · exact hlow.le
    · rw [show e0 - 1 + 1 = e0 by omega]; exact hc
  · rw [if_neg hc]
    exact ⟨not_lt.mp hc, hup⟩

/-- `floorLog2` is determined by any bracketing pair of powers of two. -/
theorem floorLog2_eq {x : ℚ} (hx : 0 < x) {k : Int}
    (h1 : (2 : ℚ) ^ k ≤ x) (h2 : x < (2 : ℚ) ^ (k + 1)) : floorLog2 x = k := by
  obtain ⟨g1, g2⟩ := floorLog2_spec hx
  by_contra hne
  rcases lt_or_gt_of_ne hne with hlt | hgt
  · have : (2 : ℚ) ^ (floorLog2 x + 1) ≤ 2 ^ k :=
      zpow_le_zpow_right₀ (by norm_num) (by omega)
    linarith
  · have : (2 : ℚ) ^ (k + 1) ≤ 2 ^ floorLog2 x :=
      zpow_le_zpow_right₀ (by norm_num) (by omega)
    linarith

/-- Round-to-nearest never moves a value by more than half a unit. -/
theorem rne_dist (m : ℚ) :
    (rne m : ℚ) - m ≤ 1 / 2 ∧ -(1 / 2) ≤ (rne m : ℚ) - m := by
  have h1 : (⌊m⌋ : ℚ) ≤ m := Int.floor_le m
  have h2 : m < ⌊m⌋ + 1 := Int.lt_floor_add_one m
  unfold rne
  split_ifs with a b c <;> simp only [not_lt] at * <;>
    constructor <;> push_cast <;> linarith

/-- Rounding preserves non-negativity. -/
theorem rne_nonneg {m : ℚ} (h : 0 ≤ m) : 0 ≤ rne m := by
  have h0 : 0 ≤ ⌊m⌋ := Int.floor_nonneg.mpr h
  unfold rne
  split_ifs <;> omega

/-- Rounding fixes integers. -/
theorem rne_intCast (k : Int) : rne ((k : Int) : ℚ) = k := by
  unfold rne
  rw [Int.floor_intCast]
  norm_num

/-- binary64 rounding preserves non-negativity. -/
theorem fl53_nonneg {x : ℚ} (h : 0 ≤ x) : 0 ≤ fl53 x := by
  rcases eq_or_lt_of_le h with h0 | h0
  · rw [fl53, if_pos h0.symm]
  · rw [fl53, if_neg h0.ne', if_neg (not_lt.mpr h), one_mul]
    have hsc : (0 : ℚ) < 2 ^ (floorLog2 |x| - 52) := zpow_pos (by norm_num) _
    have hm : (0 : ℚ) ≤ |x| / 2 ^ (floorLog2 |x| - 52) := by positivity
    have := rne_nonneg hm
    have : (0 : ℚ) ≤ (rne (|x| / 2 ^ (floorLog2 |x| - 52)) : ℚ) := by exact_mod_cast this
    exact mul_nonneg this hsc.le

/-- binary64 rounding of a non-negative value overshoots it by at most
one part in `2 ^ 53` (half an ulp). -/
theorem fl53_le {x : ℚ} (h : 0 ≤ x) : fl53 x ≤ x * (1 + eps53) := by
  rcases eq_or_lt_of_le h with h0 | h0
  · rw [fl53, if_pos h0.symm, ← h0]
    norm_num
  · rw [fl53, if_neg h0.ne', if_neg (not_lt.mpr h), one_mul, abs_of_pos h0]
    obtain ⟨hsl, _⟩ := floorLog2_spec h0
    set e : Int := floorLog2 x with he
    have two0 : (2 : ℚ) ≠ 0 := by norm_num
    have hsc : (0 : ℚ) < (2 : ℚ) ^ (e - 52) := zpow_pos (by norm_num) _
    have hhalf : (2 : ℚ) ^ (e - 52) = 2 ^ (e - 53) * 2 := by
      rw [← zpow_add_one₀ two0 (e - 53)]
      congr 1
      omega
    have herr := (rne_dist (x / 2 ^ (e - 52))).1
    have step : (rne (x / 2 ^ (e - 52)) : ℚ) * 2 ^ (e - 52)
        ≤ (x / 2 ^ (e - 52) + 1 / 2) * 2 ^ (e - 52) :=
      mul_le_mul_of_nonneg_right (by linarith) hsc.le
    have hexp : (x / 2 ^ (e - 52) + 1 / 2) * 2 ^ (e - 52) = x + 2 ^ (e - 52) / 2 := by
      field_simp
      ring
    have hhalf2 : (2 : ℚ) ^ (e - 52) / 2 = 2 ^ (e - 53) := by
      rw [hhalf]
      ring
    have hslack : (2 : ℚ) ^ (e - 53) ≤ x * eps53 := by
      have h1 : (2 : ℚ) ^ (e - 53) = 2 ^ e * 2 ^ (-53 : Int) := by
        rw [sub_eq_add_neg, zpow_add₀ two0]
      have h2 : (2 : ℚ) ^ (-53 : Int) = eps53 := by
        rw [eps53, zpow_neg]
        norm_num
      rw [h1, h2]
      exact mul_le_mul_of_nonneg_right hsl (by rw [← h2]; positivity)
    calc (rne (x / 2 ^ (e - 52)) : ℚ) * 2 ^ (e - 52)
        ≤ x + 2 ^ (e - 52) / 2 := by rw [← hexp]; exact step
    _ = x + 2 ^ (e - 53) := by rw [hhalf2]
    _ ≤ x + x * eps53 := by linarith
    _ = x * (1 + eps53) := by ring

/-- Claim C8 as amended: `withJitter base pct t` is exactly `base`
whenever `pct ≤ 0`; for `pct > 0` and a NON-NEGATIVE base the result
lies in the closed interval from `base − base·pct·(1 + 3·2⁻⁵³)/2` to
`base + base·pct·(1 + 3·2⁻⁵³)/2` — the spec’s interval widened by the
relative error of the two float64 roundings (conversion of `base` and
the product). The unwidened interval fails for a negative base and,
because of those roundings, also for large bases (see the
counterexample). -/
theorem withJitter_bounds (base : Int) (pct : ℚ) (t : Int) :
    (pct ≤ 0 → withJitter base pct t = base) ∧
    (0 < pct → 0 ≤ base →
      (base : ℚ) - (base : ℚ) * pct * (1 + 3 * eps53) / 2
          ≤ ((withJitter base pct t : Int) : ℚ) ∧
      ((withJitter base pct t : Int) : ℚ)
          ≤ (base : ℚ) + (base : ℚ) * pct * (1 + 3 * eps53) / 2) := by
  constructor
  · intro h
    simp [withJitter, h]
  · intro hp hb
    have hne : ¬ pct ≤ 0 := not_le.mpr hp
    have hb' : (0 : ℚ) ≤ (base : ℚ) := by exact_mod_cast hb
    have hA0 : 0 ≤ fl53 (base : ℚ) := fl53_nonneg hb'
    have hA : fl53 (base : ℚ) ≤ (base : ℚ) * (1 + eps53) := fl53_le hb'
    have hAp0 : (0 : ℚ) ≤ fl53 (base : ℚ) * pct := mul_nonneg hA0 hp.le
    have hD0 : 0 ≤ fl53 (fl53 (base : ℚ) * pct) := fl53_nonneg hAp0
    have hD1 : fl53 (fl53 (base : ℚ) * pct) ≤ fl53 (base : ℚ) * pct * (1 + eps53) :=
      fl53_le hAp0
    have hepos : (0 : ℚ) < eps53 := by norm_num [eps53]
    have hbp : (0 : ℚ) ≤ (base : ℚ) * pct := mul_nonneg hb' hp.le
    have hD : fl53 (fl53 (base : ℚ) * pct) ≤ (base : ℚ) * pct * (1 + 3 * eps53) := by
      have step : fl53 (base : ℚ) * pct ≤ (base : ℚ) * (1 + eps53) * pct :=
        mul_le_mul_of_nonneg_right hA hp.le
      have step2 : fl53 (base : ℚ) * pct * (1 + eps53)
          ≤ (base : ℚ) * (1 + eps53) * pct * (1 + eps53) :=
        mul_le_mul_of_nonneg_right step (by linarith)
      have hsq : ((1 : ℚ) + eps53) * (1 + eps53) ≤ 1 + 3 * eps53 := by
        norm_num [eps53]
      have key : (base : ℚ) * (1 + eps53) * pct * (1 + eps53)
          ≤ (base : ℚ) * pct * (1 + 3 * eps53) := by
        calc (base : ℚ) * (1 + eps53) * pct * (1 + eps53)
            = ((base : ℚ) * pct) * ((1 + eps53) * (1 + eps53)) := by ring
        _ ≤ ((base : ℚ) * pct) * (1 + 3 * eps53) :=
            mul_le_mul_of_nonneg_left hsq hbp
        _ = (base : ℚ) * pct * (1 + 3 * eps53) := by ring
      linarith
    obtain ⟨ht0, htle⟩ := truncQ_nonneg hD0
    simp only [withJitter, if_neg hne]
    set δ : Int := truncQ (fl53 (fl53 (base : ℚ) * pct)) with hδ
    have h2 : Int.tdiv δ 2 = δ / 2 := Int.tdiv_eq_ediv ht0 (by norm_num)
    have hd0 : 0 ≤ Int.tdiv δ 2 := by rw [h2]; omega
    have hd2 : 2 * Int.tdiv δ 2 ≤ δ := by rw [h2]; omega
    have hdq : ((Int.tdiv δ 2 : Int) : ℚ) ≤ (base : ℚ) * pct * (1 + 3 * eps53) / 2 := by
      have c1 : ((2 * Int.tdiv δ 2 : Int) : ℚ) ≤ ((δ : Int) : ℚ) := by exact_mod_cast hd2
      push_cast at c1
      linarith
    have hd0q : (0 : ℚ) ≤ ((Int.tdiv δ 2 : Int) : ℚ) := by exact_mod_cast hd0
    by_cases hs : t % 2 = 1
    · rw [if_pos hs, show (-1 : Int) * δ = -δ from by ring, Int.neg_tdiv]
      push_cast
      constructor <;> linarith
    · rw [if_neg hs, one_mul]
      push_cast
      constructor <;> linarith

/-- `-4` is exactly representable in binary64. -/
theorem fl53_neg4 : fl53 ((-4 : Int) : ℚ) = ((-4 : Int) : ℚ) := by
  have hne : ((-4 : Int) : ℚ) ≠ 0 := by norm_num
  have hlt : ((-4 : Int) : ℚ) < 0 := by norm_num
  have habs : |((-4 : Int) : ℚ)| = (4 : ℚ) := by
    rw [abs_of_neg hlt]
    norm_num
  have hlog : floorLog2 (4 : ℚ) = 2 :=
    floorLog2_eq (by norm_num) (by norm_num) (by norm_num)
  rw [fl53, if_neg hne, if_pos hlt, habs, hlog]
  have hm : (4 : ℚ) / 2 ^ ((2 : Int) - 52) = ((4503599627370496 : Int) : ℚ) := by
    norm_num
  rw [hm, rne_intCast]
  norm_num

/-- `2⁵⁴ + 3` needs 55 bits, so binary64 rounds it up to `2⁵⁴ + 4`. -/
theorem fl53_pow54 :
    fl53 ((18014398509481987 : Int) : ℚ) = ((18014398509481988 : Int) : ℚ) := by
  have hpos : (0 : ℚ) < ((18014398509481987 : Int) : ℚ) := by norm_num
  have hlog : floorLog2 ((18014398509481987 : Int) : ℚ) = 54 :=
    floorLog2_eq hpos (by norm_num) (by norm_num)
  rw [fl53, if_neg (by norm_num), if_neg (not_lt.mpr hpos.le), one_mul,
    abs_of_pos hpos, hlog]
  have hfloor : ⌊((18014398509481987 : Int) : ℚ) / 2 ^ ((54 : Int) - 52)⌋
      = 4503599627370496 := by
    rw [Int.floor_eq_iff]
    constructor <;> norm_num
  have hr : rne (((18014398509481987 : Int) : ℚ) / 2 ^ ((54 : Int) - 52))
      = 4503599627370497 := by
    rw [rne, hfloor]
    norm_num
  rw [hr]
  norm_num

/-- Halving the rounded value lands on `2⁵³ + 2`, which binary64
represents exactly. -/
theorem fl53_pow53 :
    fl53 (((18014398509481988 : Int) : ℚ) * (1 / 2)) = ((9007199254740994 : Int) : ℚ) := by
  have hx : ((18014398509481988 : Int) : ℚ) * (1 / 2) = ((9007199254740994 : Int) : ℚ) := by
    norm_num
  rw [hx]
  have hpos : (0 : ℚ) < ((9007199254740994 : Int) : ℚ) := by norm_num
  have hlog : floorLog2 ((9007199254740994 : Int) : ℚ) = 53 :=
    floorLog2_eq hpos (by norm_num) (by norm_num)
  rw [fl53, if_neg (by norm_num), if_neg (not_lt.mpr hpos.le), one_mul,
    abs_of_pos hpos, hlog]
  have hm : ((9007199254740994 : Int) : ℚ) / 2 ^ ((53 : Int) - 52)
      = ((4503599627370497 : Int) : ℚ) := by
    norm_num
  rw [hm, rne_intCast]
  norm_num

/-- Claim C8, counterexample. First: at `base = -4` ns, `pct = 1`, even
clock, the code returns `-6`, outside the claimed interval whose
endpoints invert for negative base (`-6` is not ≥ the claimed lower
endpoint `-2`). Second: at `base = 2⁵⁴ + 3` ns, `pct = 1/2`, even
clock, the int64-to-float64 conversion rounds `base` up to `2⁵⁴ + 4`,
so the code returns `base + 2⁵² + 1`, strictly above the claimed upper
endpoint `base + base·pct/2 = base + 2⁵² + 3/4`. -/
theorem withJitter_interval_cex :
    (withJitter (-4) 1 0 = -6 ∧
     ((-4 : Int) : ℚ) - ((-4 : Int) : ℚ) * 1 / 2 = -2 ∧
     ((-4 : Int) : ℚ) + ((-4 : Int) : ℚ) * 1 / 2 = -6 ∧
     ¬ ((-2 : ℚ) ≤ ((-6 : Int) : ℚ))) ∧
    (withJitter 18014398509481987 (1 / 2) 0 = 22517998136852484 ∧
     ¬ (((22517998136852484 : Int) : ℚ) ≤
        ((18014398509481987 : Int) : ℚ) +
          ((18014398509481987 : Int) : ℚ) * (1 / 2) / 2)) := by
  constructor
  · refine ⟨?_, by norm_num, by norm_num, by norm_num⟩
    unfold withJitter
    rw [if_neg (by norm_num : ¬ (1 : ℚ) ≤ 0)]
    rw [show fl53 (fl53 ((-4 : Int) : ℚ) * 1) = ((-4 : Int) : ℚ) from by
      rw [fl53_neg4, mul_one, fl53_neg4]]
    decide
  · refine ⟨?_, by norm_num⟩
    unfold withJitter
    rw [if_neg (by norm_num : ¬ (1 / 2 : ℚ) ≤ 0)]
    rw [show fl53 (fl53 ((18014398509481987 : Int) : ℚ) * (1 / 2))
        = ((9007199254740994 : Int) : ℚ) from by rw [fl53_pow54, fl53_pow53]]
    decide

/-- Witness for the amended C8 at `base = 4`: fraction `0` returns the
base unchanged, and fraction `1` stays within the widened interval. -/
theorem withJitter_bounds_witness :
    withJitter 4 0 0 = 4 ∧
    ((4 : Int) : ℚ) - ((4 : Int) : ℚ) * 1 * (1 + 3 * eps53) / 2
        ≤ ((withJitter 4 1 0 : Int) : ℚ) ∧
    ((withJitter 4 1 0 : Int) : ℚ)
        ≤ ((4 : Int) : ℚ) + ((4 : Int) : ℚ) * 1 * (1 + 3 * eps53) / 2 :=
  ⟨(withJitter_bounds 4 0 0).1 (by decide),
   (withJitter_bounds 4 1 0).2 (by decide) (by decide)⟩

end PreviewSweeper
